import Mathlib

/-!
# Verification of the cfmms-rs synchronization engine (src/sync.rs, src/error.rs)

Shallow embedding of the pool-synchronization core. The repository under
verification contains `sync.rs` (the sync engine) and `error.rs` (the error
enum). The collaborator modules (`dex.rs`, `pool.rs`, `throttle.rs`,
`checkpoint.rs`) are not part of the sources; their capabilities are modelled
as oracle functions bundled in an `Env`, and their observable effects
(throttle reservations, RPC calls, checkpoint writes) are recorded in an
explicit event trace.

Concurrency: the Rust code spawns tokio tasks and joins them in spawn order.
Each spawned task body is a deterministic function of its inputs, so the
embedding evaluates every task and fixes the schedule to spawn order. The
event trace concatenates every spawned worker's events (the code never
cancels already-spawned siblings), while the join result short-circuits on
the first worker error exactly as `aggregated.extend(sync_result?)` does.
External runtime faults (a worker panicking, or its join handle reporting a
non-panic error) cannot arise inside the pure task bodies, so they are
injected through an explicit fault schedule given to the join.
-/

namespace Cfmms

/-- Block-window step from `sync.rs`: `let step = 100000;`. -/
def step : Nat := 100000

/-- Modelled from the spec: a decoded creation-event log entry (the concrete
log type lives in the external `ethers` crate). `block` is the block number
the log was emitted in; `payload` stands for its undecoded data. -/
structure Log where
  block : Nat
  payload : Nat
  deriving DecidableEq, Repr

/-- Modelled from the spec: the `Dex` data carried by the missing `dex.rs`
module, restricted to the accessors `sync.rs` uses: `factory_address()`,
`creation_block()` (already verified numeric, per the comment in
`get_all_pools_from_dex`), and `pool_created_event_signature()`. Addresses
and topics are modelled as `Nat`. -/
structure Dex where
  factoryAddress : Nat
  creationBlock : Nat
  poolCreatedEventSignature : Nat
  deriving DecidableEq, Repr

/-- Modelled from the spec: a `Pool` from the missing `pool.rs` module.
`sync.rs` treats pools opaquely (it only threads them and calls their
refresh capabilities), so an address plus an abstract mutable state word
suffices. -/
structure Pool where
  address : Nat
  state : Nat
  deriving DecidableEq, Repr

/-- The error enum of `src/error.rs` (`CFFMError`). Generic payloads are
modelled as `Nat` codes. `ProviderError` is the infrastructure class; the
decode/ABI/math variants are the item class. -/
inductive CFFMError where
  | providerError (code : Nat)
  | contractError (code : Nat)
  | abiCodecError (code : Nat)
  | ethABIError (code : Nat)
  | joinError (code : Nat)
  | uniswapV3MathError (code : Nat)
  | pairDoesNotExistInDexes (tokenA tokenB : Nat)
  deriving DecidableEq, Repr

/-- The `if let CFFMError::ProviderError(_) = err` test from
`get_all_pool_data`. -/
def CFFMError.isProviderError : CFFMError → Bool
  | .providerError _ => true
  | _ => false

/-- Observable effects of one run: RPC calls, throttle reservations
(`increment_or_sleep` weights), refresh invocations, checkpoint writes. -/
inductive Event where
  | heightQuery
  | logQuery (factory topic fromBlock toBlock : Nat)
  | throttleReserve (weight : Nat)
  | refreshCall (p : Pool)
  | syncCall (p : Pool)
  | checkpointWrite (dexes : List Dex) (pools : List Pool) (height : Nat)
      (destination : String)
  deriving DecidableEq, Repr

/-- Oracle bundle for the external collaborators consumed by `sync.rs`:
the `ethers` provider (`get_block_number`, indexed by how many height
queries came before, and `get_logs`), the dex decode capability
(`new_empty_pool_from_event`), and the two pool refresh capabilities
(`get_pool_data` and `sync_pool`, returning the refreshed pool in place of
Rust's in-place mutation). -/
structure Env where
  blockNumber : Nat → Except CFFMError Nat
  getLogs : Nat → Nat → Nat → Nat → Except CFFMError (List Log)
  newEmptyPoolFromEvent : Dex → Log → Except CFFMError Pool
  getPoolData : Pool → Except CFFMError Pool
  syncPool : Pool → Except CFFMError Pool

/-- The lower edges of the block windows: Rust's
`(from_block..=current_block).step_by(step)` iterator, i.e. the values
`from_block + k * step` that do not exceed `current_block` (and nothing when
the inclusive range is empty). -/
def windowStarts (fromBlock currentBlock : Nat) : List Nat :=
  if fromBlock ≤ currentBlock then
    (List.range ((currentBlock - fromBlock) / step + 1)).map
      (fun k => fromBlock + k * step)
  else []

/-- One per-window task body from `get_all_pools_from_dex`: reserve one
throttle unit, query logs for `[from_block, from_block + step]`, decode each
log via `dex.new_empty_pool_from_event` (first decode failure fails the
worker). Returns the worker's `Result` and its event trace. -/
def windowWorker (env : Env) (dex : Dex) (fromBlock : Nat) :
    Except CFFMError (List Pool) × List Event :=
  let toBlock := fromBlock + step
  let trace := [Event.throttleReserve 1,
    Event.logQuery dex.factoryAddress dex.poolCreatedEventSignature fromBlock
      toBlock]
  match env.getLogs dex.factoryAddress dex.poolCreatedEventSignature fromBlock
      toBlock with
  | .error e => (.error e, trace)
  | .ok logs => (decodeLogs env dex logs, trace)
where
  /-- The `for log in logs { let pool = dex.new_empty_pool_from_event(log)?;
  pools.push(pool) }` loop. -/
  decodeLogs (env : Env) (dex : Dex) : List Log → Except CFFMError (List Pool)
    | [] => .ok []
    | l :: ls => do
      let p ← env.newEmptyPoolFromEvent dex l
      let ps ← decodeLogs env dex ls
      pure (p :: ps)

/-- Outcome of awaiting one spawned task's join handle: the task completed
with its `Result`, or the handle reported a `JoinError` that `is_panic()`,
or one that is not a panic (a cancelled task). -/
inductive JoinOutcome (α : Type) where
  | completed (r : α)
  | panicked
  | cancelled
  deriving DecidableEq, Repr

/-- Result of a join loop as observed by the caller: a normal `Ok`, a
propagated `Err`, or a panic re-raised on the joining task by
`resume_unwind` (which never returns). -/
inductive RunResult (α : Type) where
  | ok (a : α)
  | err (e : CFFMError)
  | panicOut
  deriving DecidableEq, Repr

/-- The join loop shared by `sync_pairs_with_throttle`, `get_all_pools` and
`get_all_pools_from_dex`: for each handle in spawn order,
`Ok(sync_result) => aggregated.extend(sync_result?)` (the `?` returns the
first reported error), `Err(err) if err.is_panic() => resume_unwind(..)`
(modelled as `panicOut`), and a non-panic `JoinError` falls through the
empty `else` and is absorbed. -/
def joinLoop : List (JoinOutcome (Except CFFMError (List Pool))) → List Pool →
    RunResult (List Pool)
  | [], acc => .ok acc
  | .completed (.ok ps) :: rest, acc => joinLoop rest (acc ++ ps)
  | .completed (.error e) :: _, _ => .err e
  | .panicked :: _, _ => .panicOut
  | .cancelled :: rest, acc => joinLoop rest acc

/-- Fault-free specialization of the join loop, used where every spawned
task runs to completion: aggregate `Ok` payloads, stop at the first
reported error. -/
def joinExcept : List (Except CFFMError (List Pool)) → List Pool →
    Except CFFMError (List Pool)
  | [], acc => .ok acc
  | .ok ps :: rest, acc => joinExcept rest (acc ++ ps)
  | .error e :: _, _ => .error e

/-- `get_all_pools_from_dex`: spawn one window worker per element of
`windowStarts`, join their results in spawn order; the trace collects every
spawned worker's events (siblings are not cancelled on failure). -/
def getAllPoolsFromDex (env : Env) (dex : Dex) (currentBlock : Nat) :
    Except CFFMError (List Pool) × List Event :=
  let workers := (windowStarts dex.creationBlock currentBlock).map
    (fun s => windowWorker env dex s)
  (joinExcept (workers.map Prod.fst) [], (workers.map Prod.snd).flatten)

/-- The `get_all_pool_data` loop: sequentially, for each pool, reserve 4
throttle units (`increment_or_sleep(4)`), call `pool.get_pool_data`; on
success push the refreshed pool, on a `ProviderError` return it at once, on
any other error drop the pool silently and continue. -/
def getAllPoolData (env : Env) : List Pool →
    Except CFFMError (List Pool) × List Event
  | [] => (.ok [], [])
  | p :: ps =>
    let trace := [Event.throttleReserve 4, Event.refreshCall p]
    match env.getPoolData p with
    | .ok p2 =>
      ((getAllPoolData env ps).1.map (p2 :: ·),
        trace ++ (getAllPoolData env ps).2)
    | .error e =>
      if e.isProviderError then (.error e, trace)
      else ((getAllPoolData env ps).1, trace ++ (getAllPoolData env ps).2)

/-- The reserve-sync loop inlined in `sync_pairs_with_throttle` (after
`get_all_pool_data`): sequentially, for each pool, reserve 1 throttle unit
(`increment_or_sleep(1)`), then `pool.sync_pool(..).await?` — any error
(item or infrastructure) propagates out of the worker. -/
def syncReservesLoop (env : Env) : List Pool →
    Except CFFMError (List Pool) × List Event
  | [] => (.ok [], [])
  | p :: ps =>
    let trace := [Event.throttleReserve 1, Event.syncCall p]
    match env.syncPool p with
    | .error e => (.error e, trace)
    | .ok p2 =>
      ((syncReservesLoop env ps).1.map (p2 :: ·),
        trace ++ (syncReservesLoop env ps).2)

/-- The per-dex task body spawned by `sync_pairs_with_throttle`: crawl the
dex's windows up to `currentBlock`, refresh pool data, then sync reserves,
short-circuiting on the first error (`.await?` after each stage). -/
def dexWorker (env : Env) (dex : Dex) (currentBlock : Nat) :
    Except CFFMError (List Pool) × List Event :=
  let t1 := (getAllPoolsFromDex env dex currentBlock).2
  match (getAllPoolsFromDex env dex currentBlock).1 with
  | .error e => (.error e, t1)
  | .ok pools =>
    match (getAllPoolData env pools).1 with
    | .error e => (.error e, t1 ++ (getAllPoolData env pools).2)
    | .ok pools2 =>
      ((syncReservesLoop env pools2).1,
        t1 ++ (getAllPoolData env pools).2 ++ (syncReservesLoop env pools2).2)

/-- An externally injected runtime fault for a spawned worker: its task
panicked, or its join handle reports a non-panic `JoinError`. -/
inductive Fault where
  | panicF
  | cancelledF
  deriving DecidableEq, Repr

/-- Wrap the `i`-th worker's computed result into the outcome its join
handle reports under the fault schedule. -/
def applyFault (fault : Nat → Option Fault) (i : Nat)
    (r : Except CFFMError (List Pool)) :
    JoinOutcome (Except CFFMError (List Pool)) :=
  match fault i with
  | none => .completed r
  | some .panicF => .panicked
  | some .cancelledF => .cancelled

/-- Turn the spawn-ordered list of computed worker results into the
outcomes their join handles report, applying the fault schedule by worker
index starting at `i`. -/
def outcomesFrom (fault : Nat → Option Fault) (i : Nat) :
    List (Except CFFMError (List Pool)) →
    List (JoinOutcome (Except CFFMError (List Pool)))
  | [] => []
  | r :: rs => applyFault fault i r :: outcomesFrom fault (i + 1) rs

/-- `get_all_pools` under a fault schedule: query the height once
(`provider.get_block_number().await?`), spawn one crawl per dex with that
single height as the upper bound, join in spawn order. -/
def getAllPoolsSched (env : Env) (dexes : List Dex)
    (fault : Nat → Option Fault) : RunResult (List Pool) × List Event :=
  match env.blockNumber 0 with
  | .error e => (.err e, [Event.heightQuery])
  | .ok h =>
    let workers := dexes.map (fun d => getAllPoolsFromDex env d h)
    (joinLoop (outcomesFrom fault 0 (workers.map Prod.fst)) [],
      Event.heightQuery :: (workers.map Prod.snd).flatten)

/-- `get_all_pools` with every spawned task completing normally. The
`requests_per_second_limit` argument only parameterizes the shared
throttle's timing, which the event trace abstracts, so it is not a
parameter of the model's result. -/
def getAllPools (env : Env) (dexes : List Dex) :
    RunResult (List Pool) × List Event :=
  getAllPoolsSched env dexes (fun _ => none)

/-- `sync_pairs_with_throttle` under a fault schedule: query the height once,
spawn one `dexWorker` per dex with that height, join in spawn order, then if
`save_checkpoint` re-query the height (`provider.get_block_number().await?`)
and hand `(dexes, aggregated_pools, latest_block,
"pool_sync_checkpoint.json")` to `checkpoint::construct_checkpoint`. -/
def syncPairsWithThrottleSched (env : Env) (dexes : List Dex)
    (_requestsPerSecondLimit : Nat) (saveCheckpoint : Bool)
    (fault : Nat → Option Fault) : RunResult (List Pool) × List Event :=
  match env.blockNumber 0 with
  | .error e => (.err e, [Event.heightQuery])
  | .ok h =>
    let workers := dexes.map (fun d => dexWorker env d h)
    let trace := Event.heightQuery :: (workers.map Prod.snd).flatten
    match joinLoop (outcomesFrom fault 0 (workers.map Prod.fst)) [] with
    | .err e => (.err e, trace)
    | .panicOut => (.panicOut, trace)
    | .ok pools =>
      if saveCheckpoint then
        match env.blockNumber 1 with
        | .error e => (.err e, trace ++ [Event.heightQuery])
        | .ok h2 =>
          (.ok pools, trace ++ [Event.heightQuery,
            Event.checkpointWrite dexes pools h2 "pool_sync_checkpoint.json"])
      else (.ok pools, trace)

/-- `sync_pairs_with_throttle` with every spawned task completing
normally. -/
def syncPairsWithThrottle (env : Env) (dexes : List Dex)
    (requestsPerSecondLimit : Nat) (saveCheckpoint : Bool) :
    RunResult (List Pool) × List Event :=
  syncPairsWithThrottleSched env dexes requestsPerSecondLimit saveCheckpoint
    (fun _ => none)

/-- `sync_pairs`: delegates to `sync_pairs_with_throttle` with the
requests-per-second limit set to 0, disabling the throttle. -/
def syncPairs (env : Env) (dexes : List Dex) (saveCheckpoint : Bool) :
    RunResult (List Pool) × List Event :=
  syncPairsWithThrottle env dexes 0 saveCheckpoint

/-! ## Event classifiers -/

/-- Is this event a block-height RPC query? -/
def Event.isHeightQuery : Event → Bool
  | .heightQuery => true
  | _ => false

/-- Is this event a `get_logs` RPC query? -/
def Event.isLogQuery : Event → Bool
  | .logQuery _ _ _ _ => true
  | _ => false

/-- Is this event a checkpoint write? -/
def Event.isCheckpointWrite : Event → Bool
  | .checkpointWrite _ _ _ _ => true
  | _ => false

/-- Is this event a `get_pool_data` refresh invocation? -/
def Event.isRefreshCall : Event → Bool
  | .refreshCall _ => true
  | _ => false

/-- Is this event a `sync_pool` invocation? -/
def Event.isSyncCall : Event → Bool
  | .syncCall _ => true
  | _ => false

/-! ## Join-loop lemmas -/

/-- A prefix of successful workers only accumulates its pools. -/
theorem joinExcept_ok_front (ls : List (List Pool))
    (rest : List (Except CFFMError (List Pool))) (acc : List Pool) :
    joinExcept (ls.map Except.ok ++ rest) acc =
      joinExcept rest (acc ++ ls.flatten) := by
  induction ls generalizing acc with
  | nil => simp [joinExcept]
  | cons l ls ih => simp [joinExcept, ih, List.append_assoc]

/-- The join loop propagates the first reported error, whatever comes
after it. -/
theorem joinExcept_first_error (ls : List (List Pool)) (e : CFFMError)
    (rest : List (Except CFFMError (List Pool))) (acc : List Pool) :
    joinExcept (ls.map Except.ok ++ .error e :: rest) acc = .error e := by
  rw [joinExcept_ok_front]
  simp [joinExcept]

/-- When every worker succeeds, the join returns the concatenation of all
their pool lists, in spawn order. -/
theorem joinExcept_all_ok (ls : List (List Pool)) (acc : List Pool) :
    joinExcept (ls.map Except.ok) acc = .ok (acc ++ ls.flatten) := by
  have := joinExcept_ok_front ls [] acc
  simpa [joinExcept] using this

/-- Lift a fault-free worker result to the caller's view of a join. -/
def toRunResult : Except CFFMError (List Pool) → RunResult (List Pool)
  | .ok ps => .ok ps
  | .error e => .err e

/-- With no injected faults every handle reports completion. -/
theorem outcomesFrom_none (rs : List (Except CFFMError (List Pool)))
    (i : Nat) :
    outcomesFrom (fun _ => none) i rs = rs.map JoinOutcome.completed := by
  induction rs generalizing i with
  | nil => rfl
  | cons r rs ih => simp [outcomesFrom, applyFault, ih]

/-- On all-completed outcomes the general join loop computes exactly the
fault-free join. -/
theorem joinLoop_completed (rs : List (Except CFFMError (List Pool)))
    (acc : List Pool) :
    joinLoop (rs.map JoinOutcome.completed) acc =
      toRunResult (joinExcept rs acc) := by
  induction rs generalizing acc with
  | nil => rfl
  | cons r rs ih =>
    cases r with
    | ok ps => simp [joinLoop, joinExcept, ih]
    | error e => rfl

/-- A panicked handle anywhere in the outcome list prevents the join loop
from returning `Ok`: it either re-raises the panic or has already returned
an earlier worker's reported error. -/
theorem joinLoop_panicked_ne_ok
    (outs : List (JoinOutcome (Except CFFMError (List Pool))))
    (hmem : JoinOutcome.panicked ∈ outs) (acc ps : List Pool) :
    joinLoop outs acc ≠ .ok ps := by
  induction outs generalizing acc with
  | nil => cases hmem
  | cons o outs ih =>
    cases o with
    | completed r =>
      cases r with
      | ok qs =>
        have : JoinOutcome.panicked ∈ outs := by
          cases hmem with
          | tail _ h => exact h
        exact ih this _
      | error e => simp [joinLoop]
    | panicked => simp [joinLoop]
    | cancelled =>
      have : JoinOutcome.panicked ∈ outs := by
        cases hmem with
        | tail _ h => exact h
      exact ih this _

/-- A fault schedule that panics worker `j` (counting from `i`) puts a
panicked outcome in the handle list. -/
theorem outcomesFrom_panicked_mem (fault : Nat → Option Fault) (i j : Nat)
    (rs : List (Except CFFMError (List Pool))) (hj : j < rs.length)
    (hf : fault (i + j) = some Fault.panicF) :
    JoinOutcome.panicked ∈ outcomesFrom fault i rs := by
  induction rs generalizing i j with
  | nil => simp at hj
  | cons r rs ih =>
    cases j with
    | zero =>
      simp only [Nat.add_zero] at hf
      simp [outcomesFrom, applyFault, hf]
    | succ j =>
      have : fault (i + 1 + j) = some Fault.panicF := by
        have : i + 1 + j = i + (j + 1) := by omega
        rw [this]; exact hf
      exact List.mem_cons_of_mem _
        (ih (i + 1) j (by simpa using Nat.lt_of_succ_lt_succ hj) this)

/-! ## Crawl-trace lemmas -/

/-- A window worker's trace is always its throttle reservation followed by
its log query for `[fromBlock, fromBlock + step]`, whether or not the query
or the decode succeeds. -/
theorem windowWorker_trace (env : Env) (dex : Dex) (fromBlock : Nat) :
    (windowWorker env dex fromBlock).2 =
      [Event.throttleReserve 1,
        Event.logQuery dex.factoryAddress dex.poolCreatedEventSignature
          fromBlock (fromBlock + step)] := by
  unfold windowWorker
  cases h : env.getLogs dex.factoryAddress dex.poolCreatedEventSignature
    fromBlock (fromBlock + step) <;> simp [h]

/-- The log queries of a crawl, read off its trace: exactly one query per
window start, with upper edge `start + step`. -/
theorem getAllPoolsFromDex_logQueries (env : Env) (dex : Dex)
    (currentBlock : Nat) :
    ((getAllPoolsFromDex env dex currentBlock).2).filter Event.isLogQuery =
      (windowStarts dex.creationBlock currentBlock).map
        (fun s => Event.logQuery dex.factoryAddress
          dex.poolCreatedEventSignature s (s + step)) := by
  show ((((windowStarts dex.creationBlock currentBlock).map
      (fun s => windowWorker env dex s)).map Prod.snd).flatten).filter
      Event.isLogQuery = _
  induction windowStarts dex.creationBlock currentBlock with
  | nil => rfl
  | cons s ss ih =>
    simp only [List.map_cons, List.flatten_cons, List.filter_append, ih,
      windowWorker_trace]
    rfl

/-- The window list for a range whose lower and upper bound coincide is the
single window starting at that bound. -/
theorem windowStarts_self (b : Nat) : windowStarts b b = [b] := by
  simp [windowStarts, step, List.range_succ]

/-! ## Claims -/

/-- **C10.** For all inputs, `sync_pairs(dexes, provider, save_checkpoint)`
is extensionally equal to
`sync_pairs_with_throttle(dexes, provider, 0, save_checkpoint)`: the
no-throttle entry point is the throttled entry point with the
requests-per-second limit set to 0. -/
theorem syncPairs_eq_syncPairsWithThrottle_zero (env : Env)
    (dexes : List Dex) (saveCheckpoint : Bool) :
    syncPairs env dexes saveCheckpoint =
      syncPairsWithThrottle env dexes 0 saveCheckpoint := rfl

/-- **C9.** For every exchange whose creation block equals the upper
pagination bound (an empty block range), `get_all_pools_from_dex` still
issues exactly one (hence at least one) window log query. -/
theorem getAllPoolsFromDex_empty_range_one_query (env : Env) (dex : Dex) :
    ((getAllPoolsFromDex env dex dex.creationBlock).2).countP
      Event.isLogQuery = 1 := by
  rw [List.countP_eq_length_filter, getAllPoolsFromDex_logQueries,
    windowStarts_self]
  rfl

/-- A provider model whose log queries all succeed with no logs: used to
exhibit a crawl whose final window overhangs the chain head yet succeeds. -/
def envNoLogs : Env where
  blockNumber := fun _ => .ok 250000
  getLogs := fun _ _ _ _ => .ok []
  newEmptyPoolFromEvent := fun _ _ => .error (.ethABIError 0)
  getPoolData := fun p => .ok p
  syncPool := fun p => .ok p

/-- **C4.** `get_all_pools_from_dex` partitions
`[exchange.creationBlock, upperBound]` into fixed windows of 100,000
blocks: every issued log query spans `[s, s + 100000]` for a window start
`s`, for creation block 0 and upper bound 250,000 the queried windows are
`[0,100000]`, `[100000,200000]`, `[200000,300000]`, and the final window's
overhang past the bound does not cause failure (the crawl with such a
window returns `Ok`). -/
theorem getAllPoolsFromDex_partitions :
    ((windowStarts 0 250000).map (fun s => (s, s + step)) =
      [(0, 100000), (100000, 200000), (200000, 300000)])
    ∧ (∀ env dex currentBlock,
        ((getAllPoolsFromDex env dex currentBlock).2).filter
            Event.isLogQuery =
          (windowStarts dex.creationBlock currentBlock).map
            (fun s => Event.logQuery dex.factoryAddress
              dex.poolCreatedEventSignature s (s + step)))
    ∧ (getAllPoolsFromDex envNoLogs ⟨1, 0, 7⟩ 250000).1 = .ok [] := by
  refine ⟨by decide, fun env dex c => getAllPoolsFromDex_logQueries env dex c,
    rfl⟩

/-- **C1.** If exactly one of the concurrent per-window (resp. per-exchange)
workers reports an error — its result is `.error e` while every sibling
worker succeeds — then `get_all_pools_from_dex` (resp. `get_all_pools`)
returns that error, and hence no partial pool list. -/
theorem crawl_single_error_aborts (env : Env) (e : CFFMError) :
    (∀ (dex : Dex) (currentBlock : Nat) (l1 l2 : List (List Pool)),
      ((windowStarts dex.creationBlock currentBlock).map
          (fun s => (windowWorker env dex s).1) =
        l1.map Except.ok ++ .error e :: l2.map Except.ok) →
      (getAllPoolsFromDex env dex currentBlock).1 = .error e)
    ∧ (∀ (dexes : List Dex) (h : Nat) (l1 l2 : List (List Pool)),
      env.blockNumber 0 = .ok h →
      (dexes.map (fun d => (getAllPoolsFromDex env d h).1) =
        l1.map Except.ok ++ .error e :: l2.map Except.ok) →
      (getAllPoolsSched env dexes (fun _ => none)).1 = .err e) := by
  constructor
  · intro dex currentBlock l1 l2 hres
    show joinExcept (((windowStarts dex.creationBlock currentBlock).map
      (fun s => windowWorker env dex s)).map Prod.fst) [] = .error e
    rw [List.map_map]
    show joinExcept ((windowStarts dex.creationBlock currentBlock).map
      (fun s => (windowWorker env dex s).1)) [] = .error e
    rw [hres, joinExcept_first_error]
  · intro dexes h l1 l2 hbn hres
    show (match env.blockNumber 0 with
      | .error e => (RunResult.err e, [Event.heightQuery])
      | .ok h => ((joinLoop (outcomesFrom (fun _ => none) 0
          (((dexes.map (fun d => getAllPoolsFromDex env d h)).map
            Prod.fst))) []),
          Event.heightQuery :: ((dexes.map
            (fun d => getAllPoolsFromDex env d h)).map Prod.snd).flatten)).1
        = .err e
    rw [hbn]
    show joinLoop (outcomesFrom (fun _ => none) 0
      ((dexes.map (fun d => getAllPoolsFromDex env d h)).map Prod.fst)) []
      = .err e
    rw [outcomesFrom_none, joinLoop_completed, List.map_map]
    show toRunResult (joinExcept (dexes.map
      (fun d => (getAllPoolsFromDex env d h).1)) []) = .err e
    rw [hres, joinExcept_first_error]
    rfl

/-- A provider model where the single log in the first window fails to
decode while every other window is clean: `get_logs` yields one log below
block 100,000 and none elsewhere, and `new_empty_pool_from_event` always
reports an ABI error. -/
def envDecodeFail : Env where
  blockNumber := fun _ => .ok 150000
  getLogs := fun _ _ fromBlock _ =>
    .ok (if fromBlock = 0 then [⟨5, 9⟩] else [])
  newEmptyPoolFromEvent := fun _ _ => .error (.ethABIError 3)
  getPoolData := fun p => .ok p
  syncPool := fun p => .ok p

/-- Witness for C1: a crawl of `[0, 150000]` has two windows; only the
first one's worker fails (one bad log) and the crawl returns exactly that
decode error; one exchange out of two failing likewise fails
`get_all_pools` with that error. -/
theorem crawl_single_error_aborts_witness :
    (getAllPoolsFromDex envDecodeFail ⟨1, 0, 7⟩ 150000).1 =
      .error (.ethABIError 3)
    ∧ (getAllPoolsSched envDecodeFail [⟨1, 200000, 7⟩, ⟨1, 0, 7⟩]
        (fun _ => none)).1 = .err (.ethABIError 3) := by
  constructor
  · exact (crawl_single_error_aborts envDecodeFail (.ethABIError 3)).1
      ⟨1, 0, 7⟩ 150000 [] [[]] rfl
  · exact (crawl_single_error_aborts envDecodeFail (.ethABIError 3)).2
      [⟨1, 200000, 7⟩, ⟨1, 0, 7⟩] 150000 [[]] [] rfl rfl

/-- All-success run of the refresh loop: every pool refreshes to its image
under `f`, and the loop returns them in order. -/
theorem getAllPoolData_all_ok (env : Env) (f : Pool → Pool)
    (pools : List Pool) (hok : ∀ q ∈ pools, env.getPoolData q = .ok (f q)) :
    (getAllPoolData env pools).1 = .ok (pools.map f) := by
  induction pools with
  | nil => rfl
  | cons p ps ih =>
    have hp := hok p (List.mem_cons_self p ps)
    have ihp := ih (fun q hq => hok q (List.mem_cons_of_mem p hq))
    simp [getAllPoolData, hp, ihp, Except.map]

/-- **C3.** In the state-refresh pass over the pool list
`l1 ++ p :: l2`: if `p` is the only pool whose refresh fails and its error
is item-class (not a `ProviderError`), the pass returns `Ok` with the other
pools' refreshed values, `p` silently dropped; if instead `p` fails with a
`ProviderError` (whatever happens after it), the whole pass returns that
provider error, hence no partial pool list. -/
theorem getAllPoolData_skip_on_error (env : Env) (f : Pool → Pool)
    (l1 l2 : List Pool) (p : Pool) (e : CFFMError) (code : Nat) :
    ((∀ q ∈ l1 ++ l2, env.getPoolData q = .ok (f q)) →
      env.getPoolData p = .error e → e.isProviderError = false →
      (getAllPoolData env (l1 ++ p :: l2)).1 = .ok (l1.map f ++ l2.map f))
    ∧ ((∀ q ∈ l1, env.getPoolData q = .ok (f q)) →
      env.getPoolData p = .error (.providerError code) →
      (getAllPoolData env (l1 ++ p :: l2)).1 =
        .error (.providerError code)) := by
  constructor
  · intro hok herr hitem
    induction l1 with
    | nil =>
      have h2 : (getAllPoolData env l2).1 = .ok (l2.map f) :=
        getAllPoolData_all_ok env f l2 (fun q hq => hok q (by simpa using hq))
      simp [getAllPoolData, herr, hitem, h2]
    | cons q l1 ih =>
      have hq := hok q (by simp)
      have ihq := ih (fun r hr => hok r (by
        rcases List.mem_append.1 hr with h | h
        · exact List.mem_append.2 (Or.inl (List.mem_cons_of_mem q h))
        · exact List.mem_append.2 (Or.inr h)))
      simp [getAllPoolData, hq, ihq, Except.map]
  · intro hok herr
    induction l1 with
    | nil => simp [getAllPoolData, herr, CFFMError.isProviderError]
    | cons q l1 ih =>
      have hq := hok q (by simp)
      have ihq := ih (fun r hr => hok r (List.mem_cons_of_mem q hr))
      simp [getAllPoolData, hq, ihq, Except.map]

/-- A provider model where refreshing the pool at address 11 reports an
item-class contract error while every other pool refreshes cleanly. -/
def envItemFail : Env where
  blockNumber := fun _ => .ok 250000
  getLogs := fun _ _ _ _ => .ok []
  newEmptyPoolFromEvent := fun _ l => .ok ⟨l.payload, 0⟩
  getPoolData := fun p =>
    if p.address = 11 then .error (.contractError 5) else .ok ⟨p.address, 1⟩
  syncPool := fun p => .ok p

/-- A provider model where refreshing the pool at address 11 reports an
infrastructure-class provider error. -/
def envProvFail : Env where
  blockNumber := fun _ => .ok 250000
  getLogs := fun _ _ _ _ => .ok []
  newEmptyPoolFromEvent := fun _ l => .ok ⟨l.payload, 0⟩
  getPoolData := fun p =>
    if p.address = 11 then .error (.providerError 5) else .ok ⟨p.address, 1⟩
  syncPool := fun p => .ok p

/-- Witness for C3: over three pools where only the middle one fails — with
an item-class error the pass returns the two refreshed survivors; with a
provider error it returns that error. -/
theorem getAllPoolData_skip_on_error_witness :
    (getAllPoolData envItemFail [⟨10, 0⟩, ⟨11, 0⟩, ⟨12, 0⟩]).1 =
      .ok [⟨10, 1⟩, ⟨12, 1⟩]
    ∧ (getAllPoolData envProvFail [⟨10, 0⟩, ⟨11, 0⟩, ⟨12, 0⟩]).1 =
      .error (.providerError 5) := by
  constructor
  · exact (getAllPoolData_skip_on_error envItemFail
      (fun p => ⟨p.address, 1⟩) [⟨10, 0⟩] [⟨12, 0⟩] ⟨11, 0⟩
      (.contractError 5) 5).1
      (by intro q hq; fin_cases hq; rfl; rfl) rfl rfl
  · exact (getAllPoolData_skip_on_error envProvFail
      (fun p => ⟨p.address, 1⟩) [⟨10, 0⟩] [⟨12, 0⟩] ⟨11, 0⟩
      (.contractError 5) 5).2
      (by intro q hq; fin_cases hq; rfl) rfl

/-- Modelled from the spec: a window starting at `s` owns a log at block
`b` when its log query covers `b`. The spec's windows are the closed
intervals `[0,100000]`, `[100000,200000]`, … and the consumed
`getLogs(address, topic, fromBlock, toBlock)` covers both edges (Ethereum
log filters are from/to inclusive), so ownership is `s ≤ b ≤ s + step`. -/
def ownsLog (s b : Nat) : Bool :=
  decide (s ≤ b) && decide (b ≤ s + step)

/-- A chain model holding exactly one creation log, at block 100,000 — a
shared window boundary. `get_logs` returns it for every covering query and
it decodes cleanly. -/
def envBoundary : Env where
  blockNumber := fun _ => .ok 250000
  getLogs := fun _ _ fromBlock toBlock =>
    .ok (if fromBlock ≤ 100000 ∧ 100000 ≤ toBlock then [⟨100000, 1⟩] else [])
  newEmptyPoolFromEvent := fun _ l => .ok ⟨l.payload, 0⟩
  getPoolData := fun p => .ok p
  syncPool := fun p => .ok p

/-- **C6 counterexample.** Two distinct windows of the same exchange's
crawl — `[0,100000]` and `[100000,200000]` out of the creation-0,
bound-250,000 crawl — both own a log placed at block 100,000, and the crawl
indeed queries and decodes that single log twice, returning a duplicated
pool. -/
theorem crawl_window_overlap_counterexample :
    (0 ∈ windowStarts 0 250000) ∧ (100000 ∈ windowStarts 0 250000)
    ∧ (0 : Nat) ≠ 100000
    ∧ ownsLog 0 100000 = true ∧ ownsLog 100000 100000 = true
    ∧ (getAllPoolsFromDex envBoundary ⟨1, 0, 7⟩ 250000).1 =
        .ok [⟨1, 0⟩, ⟨1, 0⟩] :=
  ⟨by decide, by decide, by decide, rfl, rfl, rfl⟩

/-- Window starts are the creation block plus a multiple of the step. -/
theorem windowStarts_mem {f c s : Nat} (h : s ∈ windowStarts f c) :
    ∃ k, s = f + k * step := by
  unfold windowStarts at h
  split at h
  · simp only [List.mem_map, List.mem_range] at h
    obtain ⟨k, _, hk⟩ := h
    exact ⟨k, hk.symm⟩
  · simp at h

/-- **C6 amended.** Distinct windows of one exchange's crawl overlap only
at their shared edges: when two distinct windows both own a log's block,
that block is exactly the upper edge of the earlier window, which is the
lower edge of the later one — a log strictly inside a window is owned by
that window alone. -/
theorem crawl_window_overlap_only_at_edges (f c s1 s2 b : Nat)
    (h1 : s1 ∈ windowStarts f c) (h2 : s2 ∈ windowStarts f c)
    (hlt : s1 < s2) (ho1 : ownsLog s1 b = true) (ho2 : ownsLog s2 b = true) :
    b = s1 + step ∧ s2 = b := by
  obtain ⟨k1, rfl⟩ := windowStarts_mem h1
  obtain ⟨k2, rfl⟩ := windowStarts_mem h2
  simp only [ownsLog, step, Bool.and_eq_true, decide_eq_true_eq] at ho1 ho2
  simp only [step] at hlt ⊢
  omega

/-- Witness for the amended C6: the boundary block 100,000 shared by the
windows starting at 0 and at 100,000. -/
theorem crawl_window_overlap_only_at_edges_witness :
    (100000 : Nat) = 0 + step ∧ (100000 : Nat) = 100000 :=
  crawl_window_overlap_only_at_edges 0 250000 0 100000 100000
    (by decide) (by decide) (by decide) rfl rfl

/-- Is this event a throttle reservation of exactly `w` units? -/
def Event.isReserveOf (w : Nat) : Event → Bool
  | .throttleReserve w2 => w2 == w
  | _ => false

/-- Checker: every event satisfying `isCall` is immediately preceded by a
throttle reservation of `w` units (`prev` is the event before the list's
head, if any). -/
def reservedJustBefore (w : Nat) (isCall : Event → Bool) :
    Option Event → List Event → Bool
  | _, [] => true
  | prev, e :: rest =>
    (if isCall e then prev == some (Event.throttleReserve w) else true) &&
      reservedJustBefore w isCall (some e) rest

/-- In `get_all_pool_data`, every `get_pool_data` invocation is immediately
preceded by its 4-unit reservation. -/
theorem getAllPoolData_reserves_four (env : Env) (pools : List Pool) :
    ∀ prev, reservedJustBefore 4 Event.isRefreshCall prev
      (getAllPoolData env pools).2 = true := by
  induction pools with
  | nil => intro prev; rfl
  | cons p ps ih =>
    intro prev
    cases h : env.getPoolData p with
    | ok p2 =>
      simp [getAllPoolData, h, reservedJustBefore, Event.isRefreshCall, ih]
    | error e =>
      by_cases hp : e.isProviderError <;>
        simp [getAllPoolData, h, hp, reservedJustBefore, Event.isRefreshCall,
          ih]

/-- In the reserve-sync loop, every `sync_pool` invocation is immediately
preceded by its 1-unit reservation. -/
theorem syncReservesLoop_reserves_one (env : Env) (pools : List Pool) :
    ∀ prev, reservedJustBefore 1 Event.isSyncCall prev
      (syncReservesLoop env pools).2 = true := by
  induction pools with
  | nil => intro prev; rfl
  | cons p ps ih =>
    intro prev
    cases h : env.syncPool p with
    | ok p2 =>
      simp [syncReservesLoop, h, reservedJustBefore, Event.isSyncCall, ih]
    | error e =>
      simp [syncReservesLoop, h, reservedJustBefore, Event.isSyncCall]

/-- **C8 counterexample.** The state-refresh stage of
`sync_pairs_with_throttle` is not a single 4-unit-per-pool pass: its
reserve-sync loop (lines 96–104, `pool.sync_pool`) reserves exactly 1
throttle unit — and never 4 — before invoking the pool's refresh
capability. Concretely, refreshing one pool there traces
`[throttleReserve 1, syncCall p]` with no 4-unit reservation. -/
theorem refresh_throttle_weights_counterexample :
    (syncReservesLoop envNoLogs [⟨10, 0⟩]).2 =
      [Event.throttleReserve 1, Event.syncCall ⟨10, 0⟩]
    ∧ (syncReservesLoop envNoLogs [⟨10, 0⟩]).2.countP (Event.isReserveOf 4)
        = 0 := ⟨rfl, rfl⟩

/-- **C8 amended.** Both state-refresh passes process pools sequentially
(the embedding of each loop is a sequential fold, as in the source) and
make exactly one `increment_or_sleep` reservation per refresh invocation:
`get_all_pool_data` reserves exactly 4 weighted units immediately before
each pool's `get_pool_data` call, and the subsequent reserve-sync loop in
`sync_pairs_with_throttle` reserves exactly 1 unit immediately before each
pool's `sync_pool` call. -/
theorem refresh_throttle_weights (env : Env) (pools : List Pool) :
    (reservedJustBefore 4 Event.isRefreshCall none
        (getAllPoolData env pools).2 = true)
    ∧ ((getAllPoolData env pools).2.countP (Event.isReserveOf 4) =
        (getAllPoolData env pools).2.countP Event.isRefreshCall)
    ∧ (reservedJustBefore 1 Event.isSyncCall none
        (syncReservesLoop env pools).2 = true)
    ∧ ((syncReservesLoop env pools).2.countP (Event.isReserveOf 1) =
        (syncReservesLoop env pools).2.countP Event.isSyncCall) := by
  refine ⟨getAllPoolData_reserves_four env pools none, ?_,
    syncReservesLoop_reserves_one env pools none, ?_⟩
  · induction pools with
    | nil => rfl
    | cons p ps ih =>
      cases h : env.getPoolData p with
      | ok p2 =>
        simp [getAllPoolData, h, List.countP_cons, Event.isReserveOf,
          Event.isRefreshCall, ih]
      | error e =>
        by_cases hp : e.isProviderError <;>
          simp [getAllPoolData, h, hp, List.countP_cons, Event.isReserveOf,
            Event.isRefreshCall, ih]
  · induction pools with
    | nil => rfl
    | cons p ps ih =>
      cases h : env.syncPool p with
      | ok p2 =>
        simp [syncReservesLoop, h, List.countP_cons, Event.isReserveOf,
          Event.isSyncCall, ih]
      | error e =>
        simp [syncReservesLoop, h, List.countP_cons, Event.isReserveOf,
          Event.isSyncCall]

/-- **C2.** For every run of `sync_pairs_with_throttle` or `get_all_pools`,
a runtime fault — a worker's join handle reporting a panic, as opposed to
the worker returning an error — is re-raised through `resume_unwind` rather
than absorbed: with any fault schedule that panics one of the spawned
workers, the call never evaluates to `Ok`, so no result missing that
worker's contribution is returned as success. -/
theorem worker_panic_reraised (env : Env) (dexes : List Dex) (limit : Nat)
    (save : Bool) (fault : Nat → Option Fault) (i : Nat)
    (hi : i < dexes.length) (hf : fault i = some Fault.panicF) :
    (∀ ps, (syncPairsWithThrottleSched env dexes limit save fault).1 ≠
      RunResult.ok ps)
    ∧ (∀ ps, (getAllPoolsSched env dexes fault).1 ≠ RunResult.ok ps) := by
  constructor
  · intro ps
    cases hb : env.blockNumber 0 with
    | error e => simp [syncPairsWithThrottleSched, hb]
    | ok h =>
      have hmem : JoinOutcome.panicked ∈ outcomesFrom fault 0
          ((dexes.map (fun d => dexWorker env d h)).map Prod.fst) := by
        apply outcomesFrom_panicked_mem fault 0 i
        · simpa using hi
        · simpa using hf
      cases hj : joinLoop (outcomesFrom fault 0
          ((dexes.map (fun d => dexWorker env d h)).map Prod.fst)) [] with
      | ok pools => exact absurd hj (joinLoop_panicked_ne_ok _ hmem [] pools)
      | err e =>
        rw [List.map_map] at hj
        simp [syncPairsWithThrottleSched, hb, hj]
      | panicOut =>
        rw [List.map_map] at hj
        simp [syncPairsWithThrottleSched, hb, hj]
  · intro ps
    cases hb : env.blockNumber 0 with
    | error e => simp [getAllPoolsSched, hb]
    | ok h =>
      have hmem : JoinOutcome.panicked ∈ outcomesFrom fault 0
          ((dexes.map (fun d => getAllPoolsFromDex env d h)).map
            Prod.fst) := by
        apply outcomesFrom_panicked_mem fault 0 i
        · simpa using hi
        · simpa using hf
      simpa [getAllPoolsSched, hb] using
        joinLoop_panicked_ne_ok _ hmem [] ps

/-- Witness for C2: one spawned worker whose handle reports a panic, on a
healthy provider — neither entry point returns `Ok`. -/
theorem worker_panic_reraised_witness :
    (syncPairsWithThrottleSched envNoLogs [⟨1, 0, 7⟩] 0 false
        (fun _ => some Fault.panicF)).1 ≠ RunResult.ok []
    ∧ (getAllPoolsSched envNoLogs [⟨1, 0, 7⟩]
        (fun _ => some Fault.panicF)).1 ≠ RunResult.ok [] := by
  have h := worker_panic_reraised envNoLogs [⟨1, 0, 7⟩] 0 false
    (fun _ => some Fault.panicF) 0 (by decide) rfl
  exact ⟨h.1 [], h.2 []⟩

/-- Every event of a crawl trace is a 1-unit reservation or a log query. -/
theorem getAllPoolsFromDex_trace_shape {env : Env} {dex : Dex}
    {currentBlock : Nat} {e : Event}
    (h : e ∈ (getAllPoolsFromDex env dex currentBlock).2) :
    e = Event.throttleReserve 1 ∨
      ∃ f t fb tb, e = Event.logQuery f t fb tb := by
  have h2 : e ∈ (((windowStarts dex.creationBlock currentBlock).map
      (fun s => windowWorker env dex s)).map Prod.snd).flatten := h
  rw [List.mem_flatten] at h2
  obtain ⟨l, hl, hel⟩ := h2
  rw [List.map_map, List.mem_map] at hl
  obtain ⟨s, _, rfl⟩ := hl
  rw [Function.comp_apply, windowWorker_trace] at hel
  simp only [List.mem_cons, List.not_mem_nil, or_false] at hel
  rcases hel with rfl | rfl
  · exact Or.inl rfl
  · exact Or.inr ⟨_, _, _, _, rfl⟩

/-- Every event of a `get_all_pool_data` trace is a 4-unit reservation or a
`get_pool_data` invocation. -/
theorem getAllPoolData_trace_shape {env : Env} :
    ∀ {pools : List Pool} {e : Event},
      e ∈ (getAllPoolData env pools).2 →
      e = Event.throttleReserve 4 ∨ ∃ p, e = Event.refreshCall p := by
  intro pools
  induction pools with
  | nil => intro e h; cases h
  | cons p ps ih =>
    intro e h
    rcases hp : env.getPoolData p with e0 | p2
    · by_cases hpe : e0.isProviderError
      · simp only [getAllPoolData, hp, hpe, if_true, List.mem_cons,
          List.not_mem_nil, or_false] at h
        rcases h with rfl | rfl
        · exact Or.inl rfl
        · exact Or.inr ⟨p, rfl⟩
      · simp only [getAllPoolData, hp, hpe, if_false, Bool.false_eq_true,
          List.cons_append, List.nil_append, List.mem_cons] at h
        rcases h with rfl | rfl | h
        · exact Or.inl rfl
        · exact Or.inr ⟨p, rfl⟩
        · exact ih h
    · simp only [getAllPoolData, hp, List.cons_append, List.nil_append,
        List.mem_cons] at h
      rcases h with rfl | rfl | h
      · exact Or.inl rfl
      · exact Or.inr ⟨p, rfl⟩
      · exact ih h

/-- Every event of a reserve-sync trace is a 1-unit reservation or a
`sync_pool` invocation. -/
theorem syncReservesLoop_trace_shape {env : Env} :
    ∀ {pools : List Pool} {e : Event},
      e ∈ (syncReservesLoop env pools).2 →
      e = Event.throttleReserve 1 ∨ ∃ p, e = Event.syncCall p := by
  intro pools
  induction pools with
  | nil => intro e h; cases h
  | cons p ps ih =>
    intro e h
    rcases hp : env.syncPool p with e0 | p2
    · simp only [syncReservesLoop, hp, List.mem_cons, List.not_mem_nil,
        or_false] at h
      rcases h with rfl | rfl
      · exact Or.inl rfl
      · exact Or.inr ⟨p, rfl⟩
    · simp only [syncReservesLoop, hp, List.cons_append, List.nil_append,
        List.mem_cons] at h
      rcases h with rfl | rfl | h
      · exact Or.inl rfl
      · exact Or.inr ⟨p, rfl⟩
      · exact ih h

/-- Every event of a per-dex worker trace comes from its crawl, its
`get_all_pool_data` pass, or its reserve-sync loop. -/
theorem dexWorker_trace_shape {env : Env} {dex : Dex} {currentBlock : Nat}
    {e : Event} (h : e ∈ (dexWorker env dex currentBlock).2) :
    e ∈ (getAllPoolsFromDex env dex currentBlock).2
    ∨ e = Event.throttleReserve 4 ∨ (∃ p, e = Event.refreshCall p)
    ∨ e = Event.throttleReserve 1 ∨ (∃ p, e = Event.syncCall p) := by
  unfold dexWorker at h
  simp only [] at h
  split at h
  · exact Or.inl h
  · split at h
    · rcases List.mem_append.1 h with h | h
      · exact Or.inl h
      · rcases getAllPoolData_trace_shape h with h | h
        · exact Or.inr (Or.inl h)
        · exact Or.inr (Or.inr (Or.inl h))
    · rcases List.mem_append.1 h with h | h
      · rcases List.mem_append.1 h with h | h
        · exact Or.inl h
        · rcases getAllPoolData_trace_shape h with h | h
          · exact Or.inr (Or.inl h)
          · exact Or.inr (Or.inr (Or.inl h))
      · rcases syncReservesLoop_trace_shape h with h | h
        · exact Or.inr (Or.inr (Or.inr (Or.inl h)))
        · exact Or.inr (Or.inr (Or.inr (Or.inr h)))

/-- A per-dex worker performs no height query and writes no checkpoint. -/
theorem dexWorker_no_height_no_checkpoint (env : Env) (dex : Dex)
    (currentBlock : Nat) :
    (∀ e ∈ (dexWorker env dex currentBlock).2,
      e.isHeightQuery = false ∧ e.isCheckpointWrite = false) := by
  intro e he
  rcases dexWorker_trace_shape he with h | h | ⟨p, rfl⟩ | h | ⟨p, rfl⟩
  · rcases getAllPoolsFromDex_trace_shape h with rfl | ⟨f, t, fb, tb, rfl⟩
    · exact ⟨rfl, rfl⟩
    · exact ⟨rfl, rfl⟩
  · subst h; exact ⟨rfl, rfl⟩
  · exact ⟨rfl, rfl⟩
  · subst h; exact ⟨rfl, rfl⟩
  · exact ⟨rfl, rfl⟩

/-- The log queries of a per-dex worker are exactly those of its crawl:
the refresh passes issue none. -/
theorem dexWorker_logQueries (env : Env) (dex : Dex) (currentBlock : Nat) :
    (dexWorker env dex currentBlock).2.filter Event.isLogQuery =
      (getAllPoolsFromDex env dex currentBlock).2.filter
        Event.isLogQuery := by
  have hrf0 : ∀ pools, (getAllPoolData env pools).2.filter
      Event.isLogQuery = [] := by
    intro pools
    rw [List.filter_eq_nil_iff]
    intro e he
    rcases getAllPoolData_trace_shape he with rfl | ⟨p, rfl⟩ <;>
      simp [Event.isLogQuery]
  have hsy0 : ∀ pools, (syncReservesLoop env pools).2.filter
      Event.isLogQuery = [] := by
    intro pools
    rw [List.filter_eq_nil_iff]
    intro e he
    rcases syncReservesLoop_trace_shape he with rfl | ⟨p, rfl⟩ <;>
      simp [Event.isLogQuery]
  unfold dexWorker
  simp only []
  split
  · rfl
  · split <;> simp [List.filter_append, hrf0, hsy0]

/-- No crawl worker ever queries the chain height. -/
theorem crawl_traces_no_heightQuery (env : Env) (dexes : List Dex)
    (h : Nat) :
    (((dexes.map (fun d => getAllPoolsFromDex env d h)).map
      Prod.snd).flatten).countP Event.isHeightQuery = 0 := by
  rw [List.countP_eq_zero]
  intro e he
  rw [List.mem_flatten] at he
  obtain ⟨l, hl, hel⟩ := he
  rw [List.map_map, List.mem_map] at hl
  obtain ⟨d, _, rfl⟩ := hl
  rcases getAllPoolsFromDex_trace_shape hel with rfl | ⟨f, t, fb, tb, rfl⟩ <;>
    simp [Event.isHeightQuery]

/-- No per-dex worker ever queries the chain height. -/
theorem dexWorker_traces_no_heightQuery (env : Env) (dexes : List Dex)
    (h : Nat) :
    (((dexes.map (fun d => dexWorker env d h)).map
      Prod.snd).flatten).countP Event.isHeightQuery = 0 := by
  rw [List.countP_eq_zero]
  intro e he
  rw [List.mem_flatten] at he
  obtain ⟨l, hl, hel⟩ := he
  rw [List.map_map, List.mem_map] at hl
  obtain ⟨d, _, rfl⟩ := hl
  simp [(dexWorker_no_height_no_checkpoint env d h e hel).1]

/-- No per-dex worker ever writes a checkpoint. -/
theorem dexWorker_traces_no_checkpoint (env : Env) (dexes : List Dex)
    (h : Nat) :
    (((dexes.map (fun d => dexWorker env d h)).map
      Prod.snd).flatten).filter Event.isCheckpointWrite = [] := by
  rw [List.filter_eq_nil_iff]
  intro e he
  rw [List.mem_flatten] at he
  obtain ⟨l, hl, hel⟩ := he
  rw [List.map_map, List.mem_map] at hl
  obtain ⟨d, _, rfl⟩ := hl
  simp [(dexWorker_no_height_no_checkpoint env d h e hel).2]

/-- The log queries of the whole crawl fan-out, per dex in spawn order:
every dex is paginated with the same upper bound `h`. -/
theorem crawl_traces_logQueries (env : Env) (dexes : List Dex) (h : Nat) :
    (((dexes.map (fun d => getAllPoolsFromDex env d h)).map
      Prod.snd).flatten).filter Event.isLogQuery =
    (dexes.map (fun d => (windowStarts d.creationBlock h).map
      (fun s => Event.logQuery d.factoryAddress
        d.poolCreatedEventSignature s (s + step)))).flatten := by
  induction dexes with
  | nil => rfl
  | cons d ds ih =>
    simp only [List.map_cons, List.flatten_cons, List.filter_append, ih,
      getAllPoolsFromDex_logQueries]

/-- Same as `crawl_traces_logQueries` for the full per-dex pipeline
workers: their refresh passes add no log queries. -/
theorem dexWorker_traces_logQueries (env : Env) (dexes : List Dex)
    (h : Nat) :
    (((dexes.map (fun d => dexWorker env d h)).map
      Prod.snd).flatten).filter Event.isLogQuery =
    (dexes.map (fun d => (windowStarts d.creationBlock h).map
      (fun s => Event.logQuery d.factoryAddress
        d.poolCreatedEventSignature s (s + step)))).flatten := by
  induction dexes with
  | nil => rfl
  | cons d ds ih =>
    simp only [List.map_cons, List.flatten_cons, List.filter_append, ih,
      dexWorker_logQueries, getAllPoolsFromDex_logQueries]

/-- **C5.** In `sync_pairs_with_throttle` and `get_all_pools` the chain
height is queried exactly once at entry and that value is the upper
pagination bound of every exchange's crawl: if the height query fails, the
whole call returns that error having performed nothing else (its entire
trace is the one failed height query); if it returns `h`, the run's trace
holds exactly one height query (checkpointing disabled, which re-queries by
design), and the run's log queries are precisely each exchange's windows
computed against that same `h`. -/
theorem single_height_query (env : Env) (dexes : List Dex) (limit : Nat)
    (save : Bool) (e : CFFMError) (h : Nat) :
    (env.blockNumber 0 = .error e →
      getAllPools env dexes = (.err e, [Event.heightQuery])
      ∧ syncPairsWithThrottle env dexes limit save =
          (.err e, [Event.heightQuery]))
    ∧ (env.blockNumber 0 = .ok h →
      ((getAllPools env dexes).2.countP Event.isHeightQuery = 1
        ∧ (syncPairsWithThrottle env dexes limit false).2.countP
            Event.isHeightQuery = 1)
      ∧ ((getAllPools env dexes).2.filter Event.isLogQuery =
          (dexes.map (fun d => (windowStarts d.creationBlock h).map
            (fun s => Event.logQuery d.factoryAddress
              d.poolCreatedEventSignature s (s + step)))).flatten
        ∧ (syncPairsWithThrottle env dexes limit false).2.filter
            Event.isLogQuery =
          (dexes.map (fun d => (windowStarts d.creationBlock h).map
            (fun s => Event.logQuery d.factoryAddress
              d.poolCreatedEventSignature s (s + step)))).flatten)) := by
  constructor
  · intro hb
    constructor
    · unfold getAllPools getAllPoolsSched
      rw [hb]
    · unfold syncPairsWithThrottle syncPairsWithThrottleSched
      rw [hb]
  · intro hb
    have hga : (getAllPools env dexes).2 = Event.heightQuery ::
        ((dexes.map (fun d => getAllPoolsFromDex env d h)).map
          Prod.snd).flatten := by
      unfold getAllPools getAllPoolsSched
      rw [hb]
    have hsp : (syncPairsWithThrottle env dexes limit false).2 =
        Event.heightQuery ::
        ((dexes.map (fun d => dexWorker env d h)).map Prod.snd).flatten := by
      unfold syncPairsWithThrottle syncPairsWithThrottleSched
      rw [hb]
      simp only []
      split <;> simp
    refine ⟨⟨?_, ?_⟩, ?_, ?_⟩
    · rw [hga, List.countP_cons, crawl_traces_no_heightQuery]; rfl
    · rw [hsp, List.countP_cons, dexWorker_traces_no_heightQuery]; rfl
    · rw [hga, List.filter_cons]
      simp only [Event.isLogQuery, Bool.false_eq_true, if_false]
      exact crawl_traces_logQueries env dexes h
    · rw [hsp, List.filter_cons]
      simp only [Event.isLogQuery, Bool.false_eq_true, if_false]
      exact dexWorker_traces_logQueries env dexes h

/-- A provider model whose height query fails. -/
def envHeightFail : Env where
  blockNumber := fun _ => .error (.providerError 9)
  getLogs := fun _ _ _ _ => .ok []
  newEmptyPoolFromEvent := fun _ l => .ok ⟨l.payload, 0⟩
  getPoolData := fun p => .ok p
  syncPool := fun p => .ok p

/-- Witness for C5: a failing height query makes the whole call fail with
only the height query in its trace; a successful one is the run's single
height query. -/
theorem single_height_query_witness :
    (getAllPools envHeightFail [⟨1, 0, 7⟩] =
      (.err (.providerError 9), [Event.heightQuery])
      ∧ syncPairsWithThrottle envHeightFail [⟨1, 0, 7⟩] 0 false =
        (.err (.providerError 9), [Event.heightQuery]))
    ∧ (getAllPools envNoLogs [⟨1, 0, 7⟩]).2.countP Event.isHeightQuery
        = 1 := by
  refine ⟨(single_height_query envHeightFail [⟨1, 0, 7⟩] 0 false
    (.providerError 9) 0).1 rfl, ?_⟩
  exact (((single_height_query envNoLogs [⟨1, 0, 7⟩] 0 false
    (.providerError 9) 250000).2 rfl).1).1

/-- **C7.** On a successful, checkpoint-requested run of
`sync_pairs_with_throttle` (against a chain whose height does not decrease
between the opening and the closing query, `h1 ≤ h2`), exactly one
checkpoint is written: it goes to the fixed destination
`"pool_sync_checkpoint.json"`, its pool list is the pool list the call
returns, its exchange list is the input exchange list, and its recorded
height is the freshly re-queried closing height `h2`, which is ≥ the height
`h1` observed at run start. -/
theorem checkpoint_written_once (env : Env) (dexes : List Dex)
    (limit : Nat) (h1 h2 : Nat) (pools : List Pool)
    (hb0 : env.blockNumber 0 = .ok h1) (hb1 : env.blockNumber 1 = .ok h2)
    (hmono : h1 ≤ h2)
    (hok : (syncPairsWithThrottle env dexes limit true).1 = .ok pools) :
    (syncPairsWithThrottle env dexes limit true).2.filter
        Event.isCheckpointWrite =
      [Event.checkpointWrite dexes pools h2 "pool_sync_checkpoint.json"]
    ∧ h1 ≤ h2 := by
  refine ⟨?_, hmono⟩
  cases hj : joinLoop (outcomesFrom (fun _ => none) 0
      ((dexes.map (fun d => dexWorker env d h1)).map Prod.fst)) [] with
  | ok pools0 =>
    have heq : syncPairsWithThrottle env dexes limit true =
        (.ok pools0, (Event.heightQuery :: ((dexes.map
          (fun d => dexWorker env d h1)).map Prod.snd).flatten) ++
          [Event.heightQuery, Event.checkpointWrite dexes pools0 h2
            "pool_sync_checkpoint.json"]) := by
      unfold syncPairsWithThrottle syncPairsWithThrottleSched
      rw [hb0]
      simp only []
      rw [hj]
      simp [hb1]
    rw [heq] at hok
    simp only [RunResult.ok.injEq] at hok
    subst hok
    rw [heq]
    simp [Event.isCheckpointWrite]
    intro d hd e he
    exact (dexWorker_no_height_no_checkpoint env d h1 e he).2
  | err e =>
    exfalso
    have : (syncPairsWithThrottle env dexes limit true).1 = .err e := by
      unfold syncPairsWithThrottle syncPairsWithThrottleSched
      rw [hb0]
      simp only []
      rw [hj]
    rw [this] at hok
    cases hok
  | panicOut =>
    exfalso
    have : (syncPairsWithThrottle env dexes limit true).1 = .panicOut := by
      unfold syncPairsWithThrottle syncPairsWithThrottleSched
      rw [hb0]
      simp only []
      rw [hj]
    rw [this] at hok
    cases hok

/-- Witness for C7: a healthy one-exchange run with checkpointing writes
the single expected checkpoint. -/
theorem checkpoint_written_once_witness :
    (syncPairsWithThrottle envNoLogs [⟨1, 0, 7⟩] 0 true).2.filter
        Event.isCheckpointWrite =
      [Event.checkpointWrite [⟨1, 0, 7⟩] [] 250000
        "pool_sync_checkpoint.json"]
    ∧ (250000 : Nat) ≤ 250000 :=
  checkpoint_written_once envNoLogs [⟨1, 0, 7⟩] 0 250000 250000 []
    rfl rfl (by decide) rfl

end Cfmms
